import Mathlib

/-!
Verification of the drpc JSON-RPC engine (Instun/drpc).

This file shallowly embeds the core of the repository:

* `lib/isomorph/jsonrpc-spec.js` — error-code catalogue and message lookup;
* `lib/isomorph/response.js` — `setRpcError` (two versions coexist in the
  repository: the minimal one in `lib/isomorph/response.js`, and the richer
  one exporting `handleError` and attaching a `type` tag, which is the one
  `lib/open.js` requires);
* `lib/isomorph/errors.js` — `parseError` / `createError`;
* `lib/handler.js` — `resolve_method` and the server-side `invoke` loop;
* `lib/open.js` — the engine: pending-request bookkeeping, timeouts,
  reconnection state machine, message dispatch, and the method proxy traps;
* the method router / middleware chain of `lib/methodHandler.js`, which is
  not present in the sources (only its caller `lib/open.js` and its tests
  are); it is modelled from the specification, as marked below.

JavaScript values are modelled as follows: JSON values are an inductive
`Json` with integer numbers; `undefined` is `Option.none`; machine maps are
association lists; exceptions are `Except`; JavaScript truthiness is made
explicit where the source relies on it.
-/

set_option linter.unusedVariables false

namespace Drpc

/-- JSON values as produced by `JSON.parse`. Numbers are modelled as
integers (the engine never does arithmetic on them). -/
inductive Json where
  | null : Json
  | bool (b : Bool) : Json
  | num (n : Int) : Json
  | str (s : String) : Json
  | arr (xs : List Json) : Json
  | obj (fields : List (String × Json)) : Json

/-- JavaScript truthiness of a parsed JSON value: `null`, `false`, `0` and
`""` are falsy; every array and object is truthy. -/
def Json.truthy : Json → Bool
  | .null => false
  | .bool b => b
  | .num n => n != 0
  | .str s => s != ""
  | .arr _ => true
  | .obj _ => true

/-- Property read `o[k]` on a parsed JSON value that is not `null`:
only objects yield fields, every other value yields `undefined`
(modelled as `none`). Reads on `null` throw and are excluded by callers. -/
def oget (o : Json) (k : String) : Option Json :=
  match o with
  | .obj fields => fields.lookup k
  | _ => none

/-- A raw channel message: either text that parses to a JSON value, or
text that `JSON.parse` rejects. Only parseability and the parsed value
matter to the engine, so the model carries exactly that. -/
inductive Msg where
  | text (j : Json) : Msg
  | garbage : Msg

/-- Model of `JSON.parse`: returns the parsed value or throws. -/
def jsonParse : Msg → Except Unit Json
  | .text j => .ok j
  | .garbage => .error ()

/-! Embedding of `lib/isomorph/jsonrpc-spec.js`. -/

/-- The `SPEC_CODE_MESSAGES` table of `jsonrpc-spec.js`. -/
def SPEC_CODE_MESSAGES (code : Int) : Option String :=
  if code = -32600 then some "Invalid Request."
  else if code = -32601 then some "Method not found."
  else if code = -32602 then some "Invalid params."
  else if code = -32603 then some "Internal error."
  else if code = -32700 then some "Parse error."
  else none

/-- The `SERVER_CODE_MESSAGES` table of `jsonrpc-spec.js`. -/
def SERVER_CODE_MESSAGES (code : Int) : Option String :=
  if code = -32000 then some "Server disconnected."
  else if code = -32001 then some "Request timeout."
  else none

/-- The `DEFAULT_SERVER_ERR` constant of `jsonrpc-spec.js`. -/
def DEFAULT_SERVER_ERR : String := "Server error."

/-- The four code classes of `exports.CodeTypes` in `jsonrpc-spec.js`. -/
inductive CodeType where
  | re_for_future
  | re_predefined
  | re_server_implementation
  | custom
deriving DecidableEq, Repr

/-- `filterCodeType` from `jsonrpc-spec.js`: inside the reserved band
`[-32768, -32000]` a code is predefined when the spec table has it,
a server-implementation code when it is at least `-32099`, and reserved
for future use otherwise; every code outside the band is custom. -/
def filterCodeType (code : Int) : CodeType :=
  if -32768 ≤ code ∧ code ≤ -32000 then
    if (SPEC_CODE_MESSAGES code).isSome then .re_predefined
    else if -32099 ≤ code then .re_server_implementation
    else .re_for_future
  else .custom

/-- `getMessageByCode` from `jsonrpc-spec.js`. The `fallback` argument
models the optional third parameter; `none` is an absent message. -/
def getMessageByCode (ctype : CodeType) (code : Int) (fallback : Option String) :
    Option String :=
  match ctype with
  | .re_for_future => fallback
  | .re_predefined => SPEC_CODE_MESSAGES code
  | .re_server_implementation =>
      some ((SERVER_CODE_MESSAGES code).getD DEFAULT_SERVER_ERR)
  | .custom => fallback

/-! Embedding of the minimal `lib/isomorph/response.js` (the version
required by `lib/handler.js`, without a `type` tag). -/

/-- The error member of a response frame built by the minimal
`setRpcError`: `{ code, message, data }`. A `none` message models a
frame whose `message` field is `undefined`. -/
structure RpcErrBody where
  code : Int
  message : Option String
  data : Option Json

/-- A JSON-RPC response frame `{ id, result?, error? }`. `none` fields
are absent from the serialized frame. -/
structure RespFrame where
  id : Option Json
  result : Option Json
  error : Option RpcErrBody

/-- `setRpcError` from the minimal `lib/isomorph/response.js`. The
`message` parameter is a JavaScript default parameter: it is replaced by
the catalogue message only when the caller passes no message at all
(`none`); an explicitly passed empty string is kept. -/
def setRpcErrorMin (id : Option Json) (code : Int) (message : Option String)
    (data : Option Json) : RespFrame :=
  let msg := match message with
    | some m => some m
    | none => getMessageByCode (filterCodeType code) code none
  { id := id, result := none, error := some { code := code, message := msg, data := data } }

/-! Embedding of `lib/isomorph/errors.js` and of the richer response
module (the version exporting both `setRpcError` and `handleError`,
which `lib/open.js` requires). -/

/-- The `ErrorTypes` tags of `lib/isomorph/errors.js`. -/
inductive ErrType where
  | NETWORK
  | PROTOCOL
  | BUSINESS
  | SYSTEM
deriving DecidableEq, Repr

/-- An error member carrying the `type` tag, as built by `createError`
in `lib/isomorph/errors.js`: `{ code, message, type, data }`. -/
structure RichErrBody where
  code : Int
  message : Option String
  type : ErrType
  data : Option Json

/-- A response frame whose error member carries a `type` tag. -/
structure RichFrame where
  id : Option Json
  result : Option Json
  error : Option RichErrBody

/-- `createError` from `lib/isomorph/errors.js`. -/
def createError (code : Int) (message : Option String) (type : ErrType)
    (data : Option Json) : RichErrBody :=
  { code := code, message := message, type := type, data := data }

/-- The kind of a thrown JavaScript error value, as discriminated by the
`instanceof` checks in `parseError`. -/
inductive ErrKind where
  | syntaxError
  | typeError
  | other
deriving DecidableEq, Repr

/-- A thrown JavaScript error as observed by `invoke` in `lib/open.js`
and by `parseError` in `lib/isomorph/errors.js`:
`code` is the optional `error.code` property (`none` when absent),
`message` is `error.message` (always a string on an `Error`, possibly
empty), `data` is the optional `error.data`, `kind` records the
`instanceof SyntaxError` / `instanceof TypeError` discrimination, and
`errField` is the optional `error.error` member consulted by the
standard-format passthrough branch of `parseError` (its presence models
`error.error && typeof error.error.code === 'number'`). -/
structure JSError where
  code : Option Int
  message : String
  data : Option Json
  kind : ErrKind
  errField : Option RichErrBody

/-- `parseError` from `lib/isomorph/errors.js`: a value already carrying
a standard-format `error` member is returned as is; otherwise a
`SyntaxError` maps to `-32700`/`PROTOCOL`, a `TypeError` to
`-32602`/`PROTOCOL`, and anything else to `-32603`/`SYSTEM` with the
error's message (or `"Internal error"` when that message is empty,
mirroring `error.message || 'Internal error'`). The function returns the
error member of the resulting response. -/
def parseError (e : JSError) : RichErrBody :=
  match e.errField with
  | some b => b
  | none =>
    match e.kind with
    | .syntaxError => createError (-32700) (some e.message) .PROTOCOL none
    | .typeError => createError (-32602) (some e.message) .PROTOCOL none
    | .other =>
        createError (-32603)
          (some (if e.message = "" then "Internal error" else e.message)) .SYSTEM none

/-- The code-to-type derivation inside the richer `setRpcError`:
parse/invalid-request errors are `PROTOCOL`, method-not-found and
invalid-params are `BUSINESS`, server-disconnect and timeout are
`NETWORK`, everything else is `SYSTEM`. -/
def codeToType (code : Int) : ErrType :=
  if code = -32700 ∨ code = -32600 then .PROTOCOL
  else if code = -32601 ∨ code = -32602 then .BUSINESS
  else if code = -32000 ∨ code = -32001 then .NETWORK
  else .SYSTEM

/-- `setRpcError` from the response module used by `lib/open.js`. Unlike
the minimal version, the guard is `if (!message)`: an absent message
and an empty-string message are both replaced by the catalogue message
for the code, and the error member carries a derived `type` tag. -/
def setRpcErrorRich (id : Option Json) (code : Int) (message : Option String)
    (data : Option Json) : RichFrame :=
  let msg := match message with
    | some m =>
        if m = "" then getMessageByCode (filterCodeType code) code none else some m
    | none => getMessageByCode (filterCodeType code) code none
  { id := id, result := none, error := some (createError code msg (codeToType code) data) }

/-- `handleError` from the response module used by `lib/open.js`:
`{ id, ...parseError(error) }`. -/
def handleError (id : Option Json) (e : JSError) : RichFrame :=
  { id := id, result := none, error := some (parseError e) }

/-- The catch branch of `invoke` in `lib/open.js` (lines 116-122): when
the thrown error carries a truthy `code` the response is
`setRpcError(id, error.code, error.message, error.data)`; otherwise the
error is mapped by `handleError`. -/
def invokeCatch (id : Option Json) (e : JSError) : RichFrame :=
  match e.code with
  | some c =>
      if c != 0 then setRpcErrorRich id c (some e.message) e.data
      else handleError id e
  | none => handleError id e

/-- The success branch of `invoke` in `lib/open.js` (lines 110-114): an
`undefined` handler result is replaced by `null`. -/
def invokeOk (id : Option Json) (r : Option Json) : RichFrame :=
  { id := id, result := some (r.getD Json.null), error := none }

/-- `invoke` from `lib/open.js`, abstracted over the outcome of running
the routed handler (a returned value, possibly `undefined`, or a thrown
error). -/
def openInvoke (id : Option Json) (outcome : Except JSError (Option Json)) : RichFrame :=
  match outcome with
  | .ok r => invokeOk id r
  | .error e => invokeCatch id e

/-! Embedding of `lib/handler.js`. -/

/-- Splitting a dotted method name, mirroring `method.split('.')` in
JavaScript (so `""` splits to `[""]` and consecutive dots yield empty
segments). Defined structurally over the character list so that it
evaluates by reduction. -/
def splitOnDotAux : List Char → List Char → List String
  | [], acc => [String.mk acc.reverse]
  | c :: rest, acc =>
      if c = '.' then String.mk acc.reverse :: splitOnDotAux rest []
      else splitOnDotAux rest (c :: acc)

/-- `method.split('.')`. -/
def splitOnDot (s : String) : List String :=
  splitOnDotAux s.data []

/-- Joining segments with dots, mirroring `segments.join('.')`. -/
def dotJoin : List String → String
  | [] => ""
  | [s] => s
  | s :: rest => s ++ "." ++ dotJoin rest

/-- The routing values `resolve_method` in `lib/handler.js` traverses: a
leaf is a handler function (`typeof r === 'function'`), an inner node is
a plain object mapping dotted keys to further routing values. A handler
takes the call's parameter array and either returns a value (possibly
`undefined`, hence `Option Json`) or throws an error whose message is
reported (`Except String`). Both constructors are truthy values in
JavaScript, so the truthiness test on `r[_method]` in the source is
exactly key presence here. -/
inductive JTree where
  | func (f : List Json → Except String (Option Json)) : JTree
  | node (fields : List (String × JTree)) : JTree

/-- The type of routed handler functions. -/
def HFn : Type := List Json → Except String (Option Json)

/-- The inner `for (var l = methods.length; l > 0; l--)` loop of
`resolve_method` (and of the specification's longest-prefix step): the
largest segment count `k` with `1 ≤ k ≤ fuel` such that the first `k`
segments joined with dots are literally a key of the node. Polymorphic in
the stored value so the handler-tree and spec-tree resolvers share it. -/
def longestKeyLen {α : Type} (fields : List (String × α)) (segs : List String) :
    Nat → Option Nat
  | 0 => none
  | l + 1 =>
      if (fields.lookup (dotJoin (segs.take (l + 1)))).isSome then some (l + 1)
      else longestKeyLen fields segs l

/-- A found prefix length is positive and bounded by the fuel. -/
theorem longestKeyLen_pos {α : Type} (fields : List (String × α)) (segs : List String) :
    ∀ n k, longestKeyLen fields segs n = some k → 1 ≤ k ∧ k ≤ n := by
  intro n
  induction n with
  | zero => intro k h; simp [longestKeyLen] at h
  | succ l ih =>
      intro k h
      simp only [longestKeyLen] at h
      by_cases hl : (fields.lookup (dotJoin (segs.take (l + 1)))).isSome
      · simp [hl] at h
        omega
      · simp [hl] at h
        have := ih k h
        omega

/-- The final `typeof r !== 'function'` check of `resolve_method`. -/
def finalCheck : Option JTree → Option HFn
  | some (.func f) => some f
  | _ => none

/-- The do-while loop of `resolve_method` in `lib/handler.js` (lines
8-30 plus the final check): at an object node, a single remaining
segment is looked up directly; otherwise the longest dotted prefix that
is a key descends and the remaining segments continue the loop. Reaching
a non-object value mid-loop (a function or `undefined`) fails, mirroring
`if (typeof r !== 'object') return`. -/
def goResolve (r : Option JTree) (methods : List String) : Option HFn :=
  match r with
  | some (JTree.node fields) =>
    if methods.length = 1 then finalCheck (fields.lookup (methods.headD ""))
    else
      match h : longestKeyLen fields methods methods.length with
      | some k =>
          if hr : methods.drop k = [] then
            finalCheck (fields.lookup (dotJoin (methods.take k)))
          else
            goResolve (fields.lookup (dotJoin (methods.take k))) (methods.drop k)
      | none => none
  | _ => none
termination_by methods.length
decreasing_by
  have hk := longestKeyLen_pos fields methods methods.length k h
  have hne : methods.drop k ≠ [] := hr
  have hpos : 0 < (methods.drop k).length := List.length_pos.mpr hne
  simp only [List.length_drop] at hpos ⊢
  omega

/-- `resolve_method` from `lib/handler.js`. -/
def resolve_method (routing : JTree) (method : String) : Option HFn :=
  goResolve (some routing) (splitOnDot method)

/-- The response built by `invoke` in `lib/handler.js` after a handler
has been resolved: apply it to the parameter array; a throw maps to
`-32603` with the thrown message, a return to `{ id, result }`. -/
def applyHandler (idv : Option Json) (f : HFn) (xs : List Json) : RespFrame :=
  match f xs with
  | .ok r => { id := idv, result := r, error := none }
  | .error emsg => setRpcErrorMin idv (-32603) (some emsg) none

/-- The resolve-and-call tail of `invoke` in `lib/handler.js` (lines
60-75): an unresolved method yields `-32601`. -/
def hcall (routing : JTree) (s : String) (idv : Option Json) (xs : List Json) :
    Except Unit RespFrame :=
  match resolve_method routing s with
  | none => .ok (setRpcErrorMin idv (-32601) none none)
  | some f => .ok (applyHandler idv f xs)

/-- `invoke` from `lib/handler.js` (lines 39-76). Unparseable input
yields `setRpcError(-1, -32700)`. A parsed `null` makes the
`o.method` access throw, which escapes `invoke` (`Except.error`), as
does a truthy non-string `method` (whose `.split` call throws inside
`resolve_method`). A falsy `method` yields `-32600`; an absent `params`
is replaced by `[]`; a present non-array `params` yields `-32602`. -/
def hinvoke (routing : JTree) (m : Msg) : Except Unit RespFrame :=
  match jsonParse m with
  | .error _ => .ok (setRpcErrorMin (some (Json.num (-1))) (-32700) none none)
  | .ok Json.null => .error ()
  | .ok o =>
    let idv := oget o "id"
    match oget o "method" with
    | none => .ok (setRpcErrorMin idv (-32600) none none)
    | some mv =>
      if mv.truthy then
        match mv with
        | Json.str s =>
          match oget o "params" with
          | none => hcall routing s idv []
          | some (Json.arr xs) => hcall routing s idv xs
          | some _ => .ok (setRpcErrorMin idv (-32602) none none)
        | _ => .error ()
      else .ok (setRpcErrorMin idv (-32600) none none)

/-- Classification of a parsed inbound frame by `handleMessage` in
`lib/open.js` (line 213): a frame whose `method` member is a string is a
request, anything else is treated as a response. -/
inductive Dispatch where
  | request (o : Json)
  | response (o : Json)

/-- The parse-and-classify stage of `handleMessage` in `lib/open.js`
(lines 206-225). The `JSON.parse` call on line 210 is not wrapped in any
try/catch, so an unparseable message makes the listener throw
(`Except.error`) and no response frame is produced; a parsed `null` also
throws at the `messagePayload.method` access. -/
def handleMessageFrame (m : Msg) : Except Unit Dispatch :=
  match jsonParse m with
  | .error e => .error e
  | .ok Json.null => .error ()
  | .ok payload =>
    match oget payload "method" with
    | some (Json.str _) => .ok (.request payload)
    | _ => .ok (.response payload)

/-! The method router of `lib/methodHandler.js`. That file is not among
the sources (only its caller `lib/open.js` and its tests are), so the
router is modelled from the specification. -/

/-- Modelled from the spec: the routing-tree variants of section 3
(`lib/methodHandler.js` is missing from the sources). A leaf is a
handler (abstracted over its function type `α`), a chain is an ordered
sequence, a namespace maps dotted name segments to subtrees, and a
literal wraps a plain value. -/
inductive RTree (α : Type) where
  | handler (h : α) : RTree α
  | chain (elements : List (RTree α)) : RTree α
  | nmspace (fields : List (String × RTree α)) : RTree α
  | literal (v : Json) : RTree α

/-- Modelled from the spec: the resolution algorithm of section 4.2
(`lib/methodHandler.js` is missing from the sources). At a namespace
node the longest dotted prefix of the remaining segments that is
literally a key descends into the corresponding child and the
unconsumed suffix becomes the new method; resolution terminates at the
first non-namespace node, which is returned with the unconsumed suffix;
a namespace with no matching prefix (step 5) fails. -/
def resolveSpec {α : Type} (t : RTree α) (segs : List String) :
    Option (RTree α × List String) :=
  match t with
  | .nmspace fields =>
    match h : longestKeyLen fields segs segs.length with
    | some k =>
      match fields.lookup (dotJoin (segs.take k)) with
      | some child => resolveSpec child (segs.drop k)
      | none => none
    | none => none
  | other => some (other, segs)
termination_by segs.length
decreasing_by
  have hk := longestKeyLen_pos fields segs segs.length k h
  simp only [List.length_drop]
  omega

/-- Modelled from the spec: resolving a dotted method name splits it on
dots first (section 4.2, step 1). The second component of the result is
the unconsumed suffix whose dotted join is the invocation context's
`method` field. -/
def resolveSpecMethod {α : Type} (t : RTree α) (method : String) :
    Option (RTree α × List String) :=
  resolveSpec t (splitOnDot method)

/-! The middleware-chain executor of `lib/methodHandler.js`, modelled
from the specification (section 4.2, "Chain execution"). -/

/-- The invocation context passed to every element of a chain:
the inbound id, the remaining dotted method name, and the mutable
parameter sequence (section 3). -/
structure ChainCtx where
  id : Option Json
  method : String
  params : List Json

/-- A chain element: it observes the current context and produces its
return value (`none` models returning `undefined`) together with the
context as possibly mutated through `this.params`. -/
def ChainFn : Type := ChainCtx → Option Json × ChainCtx

/-- Returning no value: `undefined`, unit and `null` are treated
identically by the chain contract (section 4.2). -/
def isNullish : Option Json → Bool
  | none => true
  | some Json.null => true
  | some _ => false

/-- The error a chain raises when a non-final element returns a value. -/
structure RpcErr where
  code : Int
  message : String
deriving DecidableEq, Repr

/-- The chain-contract violation error: `-32603` with the fixed message. -/
def chainViolationErr : RpcErr :=
  { code := -32603, message := "Only the last handler in the chain can return a value" }

/-- Modelled from the spec: chain execution (section 4.2,
`lib/methodHandler.js` is missing from the sources). Each element runs
in order on the evolving context; a non-final element returning a
non-null value aborts with `-32603`, and the final element's return
value is the chain's result. -/
def runChain : List ChainFn → ChainCtx → Except RpcErr (Option Json)
  | [], _ => .ok none
  | [f], ctx => .ok (f ctx).1
  | f :: g :: rest, ctx =>
      if isNullish (f ctx).1 then runChain (g :: rest) (f ctx).2
      else .error chainViolationErr

/-- A clean run of the non-final chain elements: every element returned
no value, and the context evolved from the first state to the second. -/
inductive RunsClean : List ChainFn → ChainCtx → ChainCtx → Prop
  | nil (c : ChainCtx) : RunsClean [] c c
  | cons {f : ChainFn} {fs : List ChainFn} {c c' : ChainCtx}
      (hnull : isNullish (f c).1 = true)
      (h : RunsClean fs (f c).2 c') : RunsClean (f :: fs) c c'

/-! Embedding of the engine state of `lib/open.js`: message counter,
pending tables, timers, connection state and reconnection bookkeeping.
Requests are identified by their numeric id; the completion of a request
is recorded in a completion log together with the error member of the
frame that completed it (`none` for a success frame). -/

/-- The connection states of `lib/open.js` (lines 43-49). -/
inductive ConnState where
  | INIT
  | CONNECTING
  | CONNECTED
  | RECONNECTING
  | CLOSED
deriving DecidableEq, Repr

/-- The engine configuration relevant to the state machine:
`maxRetries` and whether a channel factory function was supplied. -/
structure EngineConfig where
  maxRetries : Nat
  hasFactory : Bool
deriving DecidableEq, Repr

/-- The mutable engine state of `lib/open.js` (lines 52-60 and the
closure state of `start`): `pendingRequests` and `pendingSubscriptions`
hold the ids present in the in-flight table and the send queue;
`timers` holds the ids whose timeout timer is armed (a timer is armed at
issue and cleared by `clearTimeout` on completion); `completions`
records each completed request with the error of the completing frame
(`none` for success); `assigned` records every id handed out by
`messageCounter++`, in order. -/
structure EngineState where
  messageCounter : Nat
  pendingRequests : List Nat
  pendingSubscriptions : List Nat
  timers : List Nat
  completions : List (Nat × Option RpcErr)
  assigned : List Nat
  isConnectionOpen : Bool
  currentState : ConnState
  reconnectAttempts : Nat
  isConnectionClosed : Bool
deriving DecidableEq, Repr

/-- The error used by `handleConnectionClose` (line 159). -/
def connClosedErr : RpcErr := { code := -32000, message := "Connection closed" }

/-- The error used by the timeout handler (line 258). -/
def timeoutErr : RpcErr := { code := -32001, message := "Request timeout" }

/-- `handleResponse` from `lib/open.js` (lines 82-96): the request is
deleted from the in-flight table if present there, otherwise from the
send queue if present there; its timer is cleared and its completion is
recorded. -/
def handleResponseStep (s : EngineState) (i : Nat) (res : Option RpcErr) : EngineState :=
  { s with
    pendingRequests := s.pendingRequests.erase i,
    pendingSubscriptions :=
      if i ∈ s.pendingRequests then s.pendingSubscriptions
      else s.pendingSubscriptions.erase i,
    timers := s.timers.erase i,
    completions := (i, res) :: s.completions }

/-- The events the engine reacts to: a proxy invocation (`sendOk` tells
whether the channel write succeeded), an inbound response frame for a
given id, a timeout timer firing, the connection `close`/`exit`/`error`
event, the connection `open` event, and the reconnection timer firing.
The `open` event carries `okCount`, the number of queued requests whose
`JSON.stringify`/`sendMessage` call succeeds before one throws
(channel writes may throw per the channel contract); an `okCount` at
least the queue length models a flush in which every write succeeds. -/
inductive EngineEvent where
  | call (sendOk : Bool)
  | message (i : Nat) (res : Option RpcErr)
  | timerFire (i : Nat)
  | closeEvt
  | openEvt (okCount : Nat)
  | retryFire
deriving DecidableEq, Repr

/-- One engine transition, mirroring `lib/open.js`:

* `call` is the proxy function body (lines 248-275): a fresh id from
  `messageCounter++`, a timer armed at once; when the connection flag is
  up and the channel write succeeds the request enters the in-flight
  table, otherwise the catch block queues it in the send queue.
* `message` is the response half of `handleMessage` (lines 217-224):
  only an id present in the in-flight table completes; an unknown id is
  dropped without effect.
* `timerFire` is the armed timeout callback (line 258), which can only
  run while the timer has not been cleared.
* `closeEvt` is `handleConnectionClose` (lines 153-179): it runs once
  per connection, completes every in-flight request with `-32000` and
  leaves the send queue untouched, then moves to `RECONNECTING` when
  attempts remain — without consulting the factory — and to `CLOSED`
  otherwise.
* `openEvt okCount` is `handleConnectionOpen` (lines 185-200): the retry
  counter resets first; the flush loop walks the send queue in ascending
  id order (`for..in` over integer keys), transmitting each request and
  inserting it into the in-flight table (an object store, so an id
  already present is overwritten, not duplicated). When every write
  succeeds (`okCount` at least the queue length) the queue is emptied,
  the open flag is set and the state becomes `CONNECTED`; when the
  `okCount`-th write throws, the loop aborts: the first `okCount`
  requests are now in both tables, and the queue reset, the open flag
  and the state update are all skipped.
* `retryFire` is the reconnection timer callback (lines 165-174): still
  in `RECONNECTING`, it starts a new connection when a factory exists
  and otherwise moves to `CLOSED`. -/
def step (cfg : EngineConfig) (s : EngineState) (e : EngineEvent) : EngineState :=
  match e with
  | .call sendOk =>
    let i := s.messageCounter
    let base := { s with
      messageCounter := i + 1,
      assigned := s.assigned ++ [i],
      timers := i :: s.timers }
    if s.isConnectionOpen && sendOk then
      { base with pendingRequests := i :: base.pendingRequests }
    else
      { base with pendingSubscriptions := base.pendingSubscriptions ++ [i] }
  | .message i res =>
    if i ∈ s.pendingRequests then handleResponseStep s i res else s
  | .timerFire i =>
    if i ∈ s.timers then handleResponseStep s i (some timeoutErr) else s
  | .closeEvt =>
    if s.isConnectionClosed then s
    else
      { s with
        isConnectionClosed := true,
        pendingRequests := [],
        timers := s.timers.filter (fun i => decide (i ∉ s.pendingRequests)),
        completions :=
          s.pendingRequests.map (fun i => (i, some connClosedErr)) ++ s.completions,
        currentState :=
          if s.reconnectAttempts < cfg.maxRetries then .RECONNECTING else .CLOSED,
        reconnectAttempts :=
          if s.reconnectAttempts < cfg.maxRetries then s.reconnectAttempts + 1
          else s.reconnectAttempts }
  | .openEvt okCount =>
    let promoted := s.pendingSubscriptions.take okCount
    let newRequests :=
      promoted ++ s.pendingRequests.filter (fun j => decide (j ∉ promoted))
    if s.pendingSubscriptions.length ≤ okCount then
      { s with
        pendingRequests := newRequests,
        pendingSubscriptions := [],
        reconnectAttempts := 0,
        isConnectionOpen := true,
        currentState := .CONNECTED }
    else
      { s with
        pendingRequests := newRequests,
        reconnectAttempts := 0 }
  | .retryFire =>
    if s.currentState = ConnState.RECONNECTING then
      if cfg.hasFactory then
        { s with currentState := .CONNECTING, isConnectionClosed := false }
      else { s with currentState := .CLOSED }
    else s

/-- The engine state right after `open()` returns: `start` has run, so
the state is `CONNECTING`; the connection flag mirrors the `opened`
configuration option. -/
def initState (opened : Bool) : EngineState :=
  { messageCounter := 0, pendingRequests := [], pendingSubscriptions := [],
    timers := [], completions := [], assigned := [], isConnectionOpen := opened,
    currentState := .CONNECTING, reconnectAttempts := 0, isConnectionClosed := false }

/-- Running the engine over a sequence of events. -/
def run (cfg : EngineConfig) (opened : Bool) (events : List EngineEvent) : EngineState :=
  events.foldl (step cfg) (initState opened)

/-- Whether an event seen in state `s` avoids the partial-flush failure
mode: a connection-open event is benign when every queued write
succeeds, and every other event always is. -/
def flushOk (s : EngineState) : EngineEvent → Bool
  | .openEvt okCount => decide (s.pendingSubscriptions.length ≤ okCount)
  | _ => true

/-- A trace from `s` in which every connection-open flush completes
without a channel-write throw. -/
def goodTrace (cfg : EngineConfig) (s : EngineState) : List EngineEvent → Bool
  | [] => true
  | e :: t => flushOk s e && goodTrace cfg (step cfg s e) t

/-- The ids recorded as completed. -/
def completionIds (s : EngineState) : List Nat := s.completions.map Prod.fst

/-- The engine invariant: ids are assigned as `0, 1, 2, …` in order;
counted with multiplicity, every assigned id is in exactly one of the
in-flight table, the send queue, or the completion log; and the armed
timers are exactly the ids of the two pending tables. -/
def Inv (s : EngineState) : Prop :=
  s.assigned = List.range s.messageCounter ∧
  (∀ i, s.pendingRequests.count i + s.pendingSubscriptions.count i +
      (completionIds s).count i = s.assigned.count i) ∧
  (∀ i, s.timers.count i =
      s.pendingRequests.count i + s.pendingSubscriptions.count i)

/-! Embedding of the method-proxy traps of `lib/open.js`
(`createMethodProxy`, lines 245-305). -/

/-- The proxy's underlying function target: `base` is the set of
property names the bare function object already answers to (own
properties plus everything inherited from `Function.prototype` and
`Object.prototype`), and `cache` holds the child proxies installed by
the get trap, keyed by property name and carrying the child's fully
qualified method name. -/
structure FnTarget where
  base : List String
  cache : List (String × String)
deriving DecidableEq, Repr

/-- Property names every JavaScript function object answers to before
any child proxy is cached: own `length` and `name`, and
`Function.prototype` members such as `call`, `apply`, `bind`,
`toString` and `constructor`. -/
def functionBuiltinProps : List String :=
  ["length", "name", "call", "apply", "bind", "toString", "constructor"]

/-- `fullyQualifiedMethodName` for a child (line 246). -/
def childName (ns : String) (name : String) : String :=
  if ns = "" then name else ns ++ "." ++ name

/-- What a get-trap read returns: a property the target already had, or
a (possibly freshly created) child proxy identified by its fully
qualified method name. -/
inductive GetResult where
  | baseProp (name : String)
  | child (fq : String)
deriving DecidableEq, Repr

/-- The get trap (lines 291-296) for string keys: when
`methodName in target` holds — because the name is built in or a child
was cached earlier — the existing property is returned unchanged;
otherwise a child proxy for the extended dotted path is created, stored
on the target, and returned. (Symbol keys take the same first branch and
are not modelled.) -/
def proxyGet (fq : String) (t : FnTarget) (name : String) : GetResult × FnTarget :=
  match t.cache.lookup name with
  | some c => (.child c, t)
  | none =>
    if name ∈ t.base then (.baseProp name, t)
    else
      let c := childName fq name
      (.child c, { t with cache := (name, c) :: t.cache })

/-- The set trap (lines 297-303) for string keys: it always throws the
read-only error (only symbol keys, not modelled here, are writable). -/
def proxySet (t : FnTarget) (name : String) (value : Json) : Except String FnTarget :=
  .error ("\"" ++ name ++ "\" is read-only.")

/-! Preservation of the engine invariant. -/

/-- Occurrence count of an id in `List.range`. -/
theorem count_range (i n : Nat) : (List.range n).count i = if i < n then 1 else 0 := by
  induction n with
  | zero => simp
  | succ n ih =>
      rw [List.range_succ, List.count_append, ih, List.count_singleton']
      split_ifs <;> omega

/-- Counting in the timer list after the close handler has cleared the
timers of every in-flight request. -/
theorem count_filter_not_mem (timers req : List Nat) (j : Nat) :
    (timers.filter (fun i => decide (i ∉ req))).count j =
      if j ∈ req then 0 else timers.count j := by
  split_ifs with hj
  · refine List.count_eq_zero.mpr ?_
    intro hmem
    have hpj := List.of_mem_filter hmem
    simp only [decide_eq_true_eq] at hpj
    exact hpj hj
  · exact List.count_filter (by simpa using hj)

/-- Projecting the ids back out of the close handler's batch of
`-32000` completions. -/
theorem map_fst_pairs (l : List Nat) (e : Option RpcErr) :
    (l.map (fun i => (i, e))).map Prod.fst = l := by
  induction l with
  | nil => rfl
  | cons a t ih => simp [ih]

/-- The invariant holds in the initial state. -/
theorem inv_init (opened : Bool) : Inv (initState opened) := by
  refine ⟨rfl, ?_, ?_⟩ <;> intro i <;> simp [initState, completionIds]

/-- `handleResponse` preserves the invariant when the completed id is
pending in one of the two tables. -/
theorem inv_handleResponse (s : EngineState) (i : Nat) (res : Option RpcErr)
    (hInv : Inv s) (hmem : i ∈ s.pendingRequests ∨ i ∈ s.pendingSubscriptions) :
    Inv (handleResponseStep s i res) := by
  obtain ⟨ha, hsum, htim⟩ := hInv
  by_cases hq : i ∈ s.pendingRequests
  · have hcnt : 0 < s.pendingRequests.count i := List.count_pos_iff.mpr hq
    refine ⟨ha, ?_, ?_⟩
    · intro j
      have hs := hsum j
      have ht := htim j
      simp only [completionIds] at hs
      simp [handleResponseStep, hq, completionIds, List.count_cons,
        List.count_erase, beq_iff_eq]
      split_ifs with hij
      · subst hij; omega
      · omega
    · intro j
      have hs := hsum j
      have ht := htim j
      simp [handleResponseStep, hq, List.count_erase, beq_iff_eq]
      split_ifs with hij
      · subst hij; omega
      · omega
  · have hqs : i ∈ s.pendingSubscriptions := hmem.resolve_left hq
    have hcnt : 0 < s.pendingSubscriptions.count i := List.count_pos_iff.mpr hqs
    have hcnt0 : s.pendingRequests.count i = 0 := List.count_eq_zero.mpr hq
    refine ⟨ha, ?_, ?_⟩
    · intro j
      have hs := hsum j
      have ht := htim j
      simp only [completionIds] at hs
      simp [handleResponseStep, hq, completionIds, List.count_cons,
        List.count_erase, beq_iff_eq]
      split_ifs with hij
      · subst hij; omega
      · omega
    · intro j
      have hs := hsum j
      have ht := htim j
      simp [handleResponseStep, hq, List.count_erase, beq_iff_eq]
      split_ifs with hij
      · subst hij; omega
      · omega

/-- Every engine transition preserves the invariant, as long as a
connection-open event flushes the whole send queue (a mid-flush throw
leaves the promoted ids in both tables and genuinely breaks the
invariant; see the C2 counterexample). -/
theorem inv_step (cfg : EngineConfig) (s : EngineState) (e : EngineEvent)
    (hInv : Inv s) (hok : flushOk s e = true) : Inv (step cfg s e) := by
  obtain ⟨ha, hsum, htim⟩ := hInv
  cases e with
  | call sendOk =>
      by_cases hopen : (s.isConnectionOpen && sendOk) = true
      · refine ⟨?_, ?_, ?_⟩
        · simp [step, hopen]
          rw [ha, List.range_succ]
        · intro j
          have hs := hsum j
          simp only [completionIds] at hs
          simp [step, hopen, completionIds, List.count_append,
            List.count_cons, List.count_singleton', beq_iff_eq]
          split_ifs <;> omega
        · intro j
          have ht := htim j
          simp [step, hopen, List.count_cons, beq_iff_eq]
          split_ifs <;> omega
      · refine ⟨?_, ?_, ?_⟩
        · simp [step, hopen]
          rw [ha, List.range_succ]
        · intro j
          have hs := hsum j
          simp only [completionIds] at hs
          simp [step, hopen, completionIds, List.count_append,
            List.count_cons, List.count_singleton', beq_iff_eq]
          split_ifs <;> omega
        · intro j
          have ht := htim j
          simp [step, hopen, List.count_cons, beq_iff_eq]
          split_ifs <;> omega
  | message i res =>
      by_cases hq : i ∈ s.pendingRequests
      · have hstep : step cfg s (.message i res) = handleResponseStep s i res := by
          simp [step, hq]
        rw [hstep]
        exact inv_handleResponse s i res ⟨ha, hsum, htim⟩ (Or.inl hq)
      · have hstep : step cfg s (.message i res) = s := by simp [step, hq]
        rw [hstep]
        exact ⟨ha, hsum, htim⟩
  | timerFire i =>
      by_cases hq : i ∈ s.timers
      · have hcnt : 0 < s.timers.count i := List.count_pos_iff.mpr hq
        have ht := htim i
        have hmem : i ∈ s.pendingRequests ∨ i ∈ s.pendingSubscriptions := by
          by_cases h1 : i ∈ s.pendingRequests
          · exact Or.inl h1
          · refine Or.inr (List.count_pos_iff.mp ?_)
            have h0 : s.pendingRequests.count i = 0 := List.count_eq_zero.mpr h1
            omega
        have hstep : step cfg s (.timerFire i) = handleResponseStep s i (some timeoutErr) := by
          simp [step, hq]
        rw [hstep]
        exact inv_handleResponse s i (some timeoutErr) ⟨ha, hsum, htim⟩ hmem
      · have hstep : step cfg s (.timerFire i) = s := by simp [step, hq]
        rw [hstep]
        exact ⟨ha, hsum, htim⟩
  | closeEvt =>
      by_cases hcl : s.isConnectionClosed = true
      · have hstep : step cfg s .closeEvt = s := by simp [step, hcl]
        rw [hstep]
        exact ⟨ha, hsum, htim⟩
      · have hstep : step cfg s .closeEvt =
            { s with
              isConnectionClosed := true,
              pendingRequests := [],
              timers := s.timers.filter (fun i => decide (i ∉ s.pendingRequests)),
              completions :=
                s.pendingRequests.map (fun i => (i, some connClosedErr)) ++ s.completions,
              currentState :=
                if s.reconnectAttempts < cfg.maxRetries then .RECONNECTING else .CLOSED,
              reconnectAttempts :=
                if s.reconnectAttempts < cfg.maxRetries then s.reconnectAttempts + 1
                else s.reconnectAttempts } := by
          simp [step, hcl]
        rw [hstep]
        refine ⟨ha, ?_, ?_⟩
        · intro j
          have hs := hsum j
          simp only [completionIds] at hs
          simp only [completionIds, List.map_append, map_fst_pairs,
            List.count_append, List.count_nil]
          omega
        · intro j
          have ht := htim j
          have hone := hsum j
          simp only [completionIds] at hone
          have hassigned : s.assigned.count j ≤ 1 := by
            rw [ha, count_range]; split <;> omega
          simp only [List.count_nil, count_filter_not_mem]
          by_cases hjq : j ∈ s.pendingRequests
          · have h1 : 0 < s.pendingRequests.count j := List.count_pos_iff.mpr hjq
            rw [if_pos hjq]
            omega
          · have h0 : s.pendingRequests.count j = 0 := List.count_eq_zero.mpr hjq
            rw [if_neg hjq]
            omega
  | openEvt okCount =>
      have hlen : s.pendingSubscriptions.length ≤ okCount := by
        simpa [flushOk] using hok
      have htake : s.pendingSubscriptions.take okCount = s.pendingSubscriptions :=
        List.take_of_length_le hlen
      have hstep : step cfg s (.openEvt okCount) =
          { s with
            pendingRequests := s.pendingSubscriptions ++
              s.pendingRequests.filter (fun j => decide (j ∉ s.pendingSubscriptions)),
            pendingSubscriptions := [],
            reconnectAttempts := 0,
            isConnectionOpen := true,
            currentState := .CONNECTED } := by
        simp [step, hlen, htake]
      rw [hstep]
      have hfil : ∀ j,
          (s.pendingRequests.filter
            (fun j => decide (j ∉ s.pendingSubscriptions))).count j =
            s.pendingRequests.count j ∨
          (j ∈ s.pendingSubscriptions ∧
            (s.pendingRequests.filter
              (fun j => decide (j ∉ s.pendingSubscriptions))).count j = 0 ∧
            s.pendingRequests.count j = 0) := by
        intro j
        by_cases hj : j ∈ s.pendingSubscriptions
        · right
          have hs := hsum j
          simp only [completionIds] at hs
          have hassigned : s.assigned.count j ≤ 1 := by
            rw [ha, count_range]; split <;> omega
          have hjs : 0 < s.pendingSubscriptions.count j := List.count_pos_iff.mpr hj
          have hreq0 : s.pendingRequests.count j = 0 := by omega
          have hle : (s.pendingRequests.filter
              (fun j => decide (j ∉ s.pendingSubscriptions))).count j ≤
              s.pendingRequests.count j :=
            (List.filter_sublist _).count_le j
          exact ⟨hj, by omega, hreq0⟩
        · left
          exact List.count_filter (by simpa using hj)
      refine ⟨ha, ?_, ?_⟩
      · intro j
        have hs := hsum j
        simp only [completionIds] at hs
        simp only [completionIds, List.count_append, List.count_nil]
        rcases hfil j with hcase | ⟨hmem, hcase, hreq0⟩ <;> omega
      · intro j
        have ht := htim j
        simp only [List.count_append, List.count_nil]
        rcases hfil j with hcase | ⟨hmem, hcase, hreq0⟩ <;> omega
  | retryFire =>
      by_cases hrc : s.currentState = ConnState.RECONNECTING
      · by_cases hf : cfg.hasFactory = true
        · have hstep : step cfg s .retryFire =
              { s with currentState := .CONNECTING, isConnectionClosed := false } := by
            simp [step, hrc, hf]
          rw [hstep]
          exact ⟨ha, hsum, htim⟩
        · have hstep : step cfg s .retryFire = { s with currentState := .CLOSED } := by
            simp [step, hrc, hf]
          rw [hstep]
          exact ⟨ha, hsum, htim⟩
      · have hstep : step cfg s .retryFire = s := by simp [step, hrc]
        rw [hstep]
        exact ⟨ha, hsum, htim⟩

/-- The invariant is preserved along any event sequence in which every
connection-open flush completes. -/
theorem inv_foldl (cfg : EngineConfig) (events : List EngineEvent) :
    ∀ s, Inv s → goodTrace cfg s events = true →
      Inv (events.foldl (step cfg) s) := by
  induction events with
  | nil => intro s h _; exact h
  | cons e t ih =>
      intro s h hg
      simp only [goodTrace, Bool.and_eq_true] at hg
      exact ih _ (inv_step cfg s e h hg.1) hg.2

/-- Every engine state reached without a partial flush satisfies the
invariant. -/
theorem inv_run (cfg : EngineConfig) (opened : Bool) (events : List EngineEvent)
    (hg : goodTrace cfg (initState opened) events = true) :
    Inv (run cfg opened events) :=
  inv_foldl cfg events _ (inv_init opened) hg

/-- Every transition only prepends to the completion log. -/
theorem completions_step_suffix (cfg : EngineConfig) (s : EngineState) (e : EngineEvent) :
    ∃ pre, (step cfg s e).completions = pre ++ s.completions := by
  cases e with
  | call sendOk =>
      by_cases hopen : (s.isConnectionOpen && sendOk) = true
      · exact ⟨[], by simp [step, hopen]⟩
      · exact ⟨[], by simp [step, hopen]⟩
  | message i' res =>
      by_cases hq : i' ∈ s.pendingRequests
      · exact ⟨[(i', res)], by simp [step, hq, handleResponseStep]⟩
      · exact ⟨[], by simp [step, hq]⟩
  | timerFire i' =>
      by_cases hq : i' ∈ s.timers
      · exact ⟨[(i', some timeoutErr)], by simp [step, hq, handleResponseStep]⟩
      · exact ⟨[], by simp [step, hq]⟩
  | closeEvt =>
      by_cases hcl : s.isConnectionClosed = true
      · exact ⟨[], by simp [step, hcl]⟩
      · exact ⟨s.pendingRequests.map (fun i => (i, some connClosedErr)),
          by simp [step, hcl]⟩
  | openEvt okCount =>
      by_cases hlen : s.pendingSubscriptions.length ≤ okCount
      · exact ⟨[], by simp [step, hlen]⟩
      · exact ⟨[], by simp [step, hlen]⟩
  | retryFire =>
      by_cases hrc : s.currentState = ConnState.RECONNECTING
      · by_cases hf : cfg.hasFactory = true
        · exact ⟨[], by simp [step, hrc, hf]⟩
        · exact ⟨[], by simp [step, hrc, hf]⟩
      · exact ⟨[], by simp [step, hrc]⟩

/-- A recorded completion survives any single transition. -/
theorem compIds_mono_step (cfg : EngineConfig) (s : EngineState) (e : EngineEvent)
    {i : Nat} (h : i ∈ completionIds s) : i ∈ completionIds (step cfg s e) := by
  obtain ⟨pre, hpre⟩ := completions_step_suffix cfg s e
  simp only [completionIds, hpre, List.map_append]
  exact List.mem_append_right _ h

/-- A recorded completion survives any event sequence. -/
theorem compIds_mono_foldl (cfg : EngineConfig) (t : List EngineEvent) :
    ∀ s {i : Nat}, i ∈ completionIds s → i ∈ completionIds (t.foldl (step cfg) s) := by
  induction t with
  | nil => intro s i h; exact h
  | cons e t ih => intro s i h; exact ih _ (compIds_mono_step cfg s e h)

/-- A completed id is in neither pending table. -/
theorem completed_not_pending {s : EngineState} (hInv : Inv s) {i : Nat}
    (h : i ∈ completionIds s) :
    i ∉ s.pendingRequests ∧ i ∉ s.pendingSubscriptions := by
  obtain ⟨ha, hsum, _⟩ := hInv
  have hs := hsum i
  have hassigned : s.assigned.count i ≤ 1 := by
    rw [ha, count_range]; split <;> omega
  have hc : 0 < (completionIds s).count i := List.count_pos_iff.mpr h
  simp only [completionIds] at hs hc
  constructor
  · intro hmem
    have : 0 < s.pendingRequests.count i := List.count_pos_iff.mpr hmem
    omega
  · intro hmem
    have : 0 < s.pendingSubscriptions.count i := List.count_pos_iff.mpr hmem
    omega

/-- Each id occurs at most once among the assigned ids. -/
theorem assigned_count_le_one {s : EngineState} (hInv : Inv s) (i : Nat) :
    s.assigned.count i ≤ 1 := by
  rw [hInv.1, count_range]; split <;> omega

/-- An uncompleted assigned id sits in exactly one of the two tables. -/
theorem pending_exactly_one {s : EngineState} (hInv : Inv s) {i : Nat}
    (hi : i ∈ s.assigned) (hnc : i ∉ completionIds s) :
    (i ∈ s.pendingRequests ∧ i ∉ s.pendingSubscriptions) ∨
    (i ∉ s.pendingRequests ∧ i ∈ s.pendingSubscriptions) := by
  have hs := hInv.2.1 i
  have h1 : 0 < s.assigned.count i := List.count_pos_iff.mpr hi
  have h2 : s.assigned.count i ≤ 1 := assigned_count_le_one hInv i
  have h3 : (completionIds s).count i = 0 := List.count_eq_zero.mpr hnc
  by_cases hr : i ∈ s.pendingRequests
  · left
    refine ⟨hr, ?_⟩
    have hrc : 0 < s.pendingRequests.count i := List.count_pos_iff.mpr hr
    intro hsub
    have hqc : 0 < s.pendingSubscriptions.count i := List.count_pos_iff.mpr hsub
    omega
  · right
    have h0 : s.pendingRequests.count i = 0 := List.count_eq_zero.mpr hr
    refine ⟨hr, List.count_pos_iff.mp ?_⟩
    omega

/-- An in-flight id is not also queued. -/
theorem inflight_not_queued {s : EngineState} (hInv : Inv s) {i : Nat}
    (hi : i ∈ s.pendingRequests) : i ∉ s.pendingSubscriptions := by
  have hs := hInv.2.1 i
  have h2 : s.assigned.count i ≤ 1 := assigned_count_le_one hInv i
  have hr : 0 < s.pendingRequests.count i := List.count_pos_iff.mpr hi
  intro hsub
  have hq : 0 < s.pendingSubscriptions.count i := List.count_pos_iff.mpr hsub
  omega

/-- Every pending id has an armed timer. -/
theorem pending_in_timers {s : EngineState} (hInv : Inv s) {i : Nat}
    (hi : i ∈ s.pendingRequests ∨ i ∈ s.pendingSubscriptions) : i ∈ s.timers := by
  have ht := hInv.2.2 i
  refine List.count_pos_iff.mp ?_
  cases hi with
  | inl h => have := List.count_pos_iff.mpr h; omega
  | inr h => have := List.count_pos_iff.mpr h; omega

/-- Erasing an in-flight id removes it completely (ids are unique). -/
theorem not_mem_erase_self {s : EngineState} (hInv : Inv s) {i : Nat}
    (hi : i ∈ s.pendingRequests) : i ∉ s.pendingRequests.erase i := by
  have hs := hInv.2.1 i
  have h2 : s.assigned.count i ≤ 1 := assigned_count_le_one hInv i
  intro hmem
  have hpos := List.count_pos_iff.mpr hmem
  rw [List.count_erase_self] at hpos
  omega

/-- Whether an event is a proxy invocation. -/
def isCallEvent : EngineEvent → Bool
  | .call _ => true
  | _ => false

/-- Each transition bumps the message counter exactly on calls. -/
theorem counter_step (cfg : EngineConfig) (s : EngineState) (e : EngineEvent) :
    (step cfg s e).messageCounter =
      s.messageCounter + (if isCallEvent e then 1 else 0) := by
  cases e with
  | call sendOk =>
      by_cases hopen : (s.isConnectionOpen && sendOk) = true <;>
        simp [step, hopen, isCallEvent]
  | message i res =>
      by_cases hq : i ∈ s.pendingRequests <;>
        simp [step, hq, handleResponseStep, isCallEvent]
  | timerFire i =>
      by_cases hq : i ∈ s.timers <;>
        simp [step, hq, handleResponseStep, isCallEvent]
  | closeEvt =>
      by_cases hcl : s.isConnectionClosed = true <;> simp [step, hcl, isCallEvent]
  | openEvt okCount =>
      by_cases hlen : s.pendingSubscriptions.length ≤ okCount <;>
        simp [step, hlen, isCallEvent]
  | retryFire =>
      by_cases hrc : s.currentState = ConnState.RECONNECTING
      · by_cases hf : cfg.hasFactory = true <;> simp [step, hrc, hf, isCallEvent]
      · simp [step, hrc, isCallEvent]

/-- The message counter counts exactly the call events processed. -/
theorem counter_foldl (cfg : EngineConfig) :
    ∀ (events : List EngineEvent) (s : EngineState),
      (events.foldl (step cfg) s).messageCounter =
        s.messageCounter + events.countP isCallEvent := by
  intro events
  induction events with
  | nil => intro s; simp
  | cons e t ih =>
      intro s
      rw [List.foldl_cons, ih, counter_step, List.countP_cons]
      omega

/-- Id assignment is independent of flush failures: ids are always the
range of the counter. -/
theorem assigned_range_step (cfg : EngineConfig) (s : EngineState) (e : EngineEvent)
    (h : s.assigned = List.range s.messageCounter) :
    (step cfg s e).assigned = List.range (step cfg s e).messageCounter := by
  cases e with
  | call sendOk =>
      by_cases hopen : (s.isConnectionOpen && sendOk) = true <;>
        simp [step, hopen, h, List.range_succ]
  | message i res =>
      by_cases hq : i ∈ s.pendingRequests <;>
        simp [step, hq, handleResponseStep, h]
  | timerFire i =>
      by_cases hq : i ∈ s.timers <;> simp [step, hq, handleResponseStep, h]
  | closeEvt =>
      by_cases hcl : s.isConnectionClosed = true <;> simp [step, hcl, h]
  | openEvt okCount =>
      by_cases hlen : s.pendingSubscriptions.length ≤ okCount <;>
        simp [step, hlen, h]
  | retryFire =>
      by_cases hrc : s.currentState = ConnState.RECONNECTING
      · by_cases hf : cfg.hasFactory = true <;> simp [step, hrc, hf, h]
      · simp [step, hrc, h]

/-- Ids are the range of the counter along every event sequence. -/
theorem assigned_range_foldl (cfg : EngineConfig) :
    ∀ (events : List EngineEvent) (s : EngineState),
      s.assigned = List.range s.messageCounter →
      (events.foldl (step cfg) s).assigned =
        List.range (events.foldl (step cfg) s).messageCounter := by
  intro events
  induction events with
  | nil => intro s h; exact h
  | cons e t ih => intro s h; exact ih _ (assigned_range_step cfg s e h)

/-- C2 counterexample: with two calls queued on a not-yet-open
connection, a connection-open flush whose second channel write throws
leaves id 0 promoted to the in-flight table while still referenced from
the send queue — an uncompleted assigned id referenced from both tables
at once, not exactly one. -/
theorem C2_counterexample :
    0 ∈ (run ⟨3, true⟩ false [.call true, .call true, .openEvt 1]).assigned ∧
    0 ∉ completionIds (run ⟨3, true⟩ false [.call true, .call true, .openEvt 1]) ∧
    0 ∈ (run ⟨3, true⟩ false [.call true, .call true, .openEvt 1]).pendingRequests ∧
    0 ∈ (run ⟨3, true⟩ false
      [.call true, .call true, .openEvt 1]).pendingSubscriptions := by
  decide

/-- C2 (amended): across any run, ids are assigned as the distinct
increasing sequence 0, 1, 2, … with one id per outbound call; and
provided every connection-open flush completes without a channel-write
throw, every uncompleted assigned id is referenced from exactly one of
the send queue and the in-flight table, a completed id from neither, and
an arriving response frame completes exactly the in-flight request whose
id matches (removing only that entry) while a response whose id is not
in flight changes nothing. A write throwing mid-flush leaves the
already-promoted requests referenced from both tables. -/
theorem C2_ids_and_pending_tables (cfg : EngineConfig) (opened : Bool)
    (events : List EngineEvent) (s : EngineState) (hs : s = run cfg opened events) :
    s.assigned = List.range s.messageCounter ∧
    s.messageCounter = events.countP isCallEvent ∧
    (goodTrace cfg (initState opened) events = true →
      (∀ i, i ∈ s.assigned → i ∉ completionIds s →
        ((i ∈ s.pendingRequests ∧ i ∉ s.pendingSubscriptions) ∨
         (i ∉ s.pendingRequests ∧ i ∈ s.pendingSubscriptions))) ∧
      (∀ i, i ∈ completionIds s →
        i ∉ s.pendingRequests ∧ i ∉ s.pendingSubscriptions) ∧
      (∀ i res, i ∈ s.pendingRequests →
        (step cfg s (.message i res)).completions = (i, res) :: s.completions ∧
        i ∉ (step cfg s (.message i res)).pendingRequests ∧
        i ∉ (step cfg s (.message i res)).pendingSubscriptions ∧
        (∀ j, j ∈ s.pendingRequests → j ≠ i →
          j ∈ (step cfg s (.message i res)).pendingRequests))) ∧
    (∀ i res, i ∉ s.pendingRequests → step cfg s (.message i res) = s) := by
  refine ⟨?_, ?_, ?_, ?_⟩
  · rw [hs]
    exact assigned_range_foldl cfg events (initState opened) rfl
  · have := counter_foldl cfg events (initState opened)
    simp only [initState] at this
    rw [hs]
    simpa [run] using this
  · intro hg
    have hInv : Inv s := hs ▸ inv_run cfg opened events hg
    refine ⟨?_, ?_, ?_⟩
    · intro i hi hnc
      exact pending_exactly_one hInv hi hnc
    · intro i hi
      exact completed_not_pending hInv hi
    · intro i res hi
      have hstep : step cfg s (.message i res) = handleResponseStep s i res := by
        simp [step, hi]
      have hsubs : i ∉ s.pendingSubscriptions := inflight_not_queued hInv hi
      refine ⟨by rw [hstep]; rfl, ?_, ?_, ?_⟩
      · rw [hstep]
        exact not_mem_erase_self hInv hi
      · rw [hstep]
        simpa [handleResponseStep, hi] using hsubs
      · intro j hj hji
        rw [hstep]
        simp only [handleResponseStep]
        exact (List.mem_erase_of_ne hji).mpr hj
  · intro i res hi
    simp [step, hi]

/-- C2 witness: after two calls on an open connection (a flush-free,
hence good, trace) the ids 0 and 1 have been assigned in order and id 0
is in flight and not queued. -/
theorem C2_ids_and_pending_tables_witness :
    (run ⟨3, true⟩ true [.call true, .call true]).assigned = List.range 2 ∧
    ((0 ∈ (run ⟨3, true⟩ true [.call true, .call true]).pendingRequests ∧
      0 ∉ (run ⟨3, true⟩ true [.call true, .call true]).pendingSubscriptions) ∨
     (0 ∉ (run ⟨3, true⟩ true [.call true, .call true]).pendingRequests ∧
      0 ∈ (run ⟨3, true⟩ true [.call true, .call true]).pendingSubscriptions)) := by
  have h := C2_ids_and_pending_tables ⟨3, true⟩ true [.call true, .call true] _ rfl
  exact ⟨by decide, (h.2.2.1 (by decide)).1 0 (by decide) (by decide)⟩

/-- C4 counterexample: two calls queue, a partial flush promotes id 0
into the in-flight table while it stays queued, its timer fires and
records the `-32001` completion — but a later full flush re-promotes the
stale queued copy of id 0, and a response frame with id 0 arriving after
the timeout then completes it again, changing the state instead of being
dropped. -/
theorem C4_counterexample :
    (0, some timeoutErr) ∈ (run ⟨3, true⟩ false
      [.call true, .call true, .openEvt 1, .timerFire 0]).completions ∧
    0 ∉ (run ⟨3, true⟩ false
      [.call true, .call true, .openEvt 1, .timerFire 0]).pendingRequests ∧
    0 ∈ (run ⟨3, true⟩ false
      [.call true, .call true, .openEvt 1, .timerFire 0, .openEvt 2]).pendingRequests ∧
    (step ⟨3, true⟩ (run ⟨3, true⟩ false
        [.call true, .call true, .openEvt 1, .timerFire 0, .openEvt 2])
        (.message 0 none)).completions =
      (0, none) :: (run ⟨3, true⟩ false
        [.call true, .call true, .openEvt 1, .timerFire 0, .openEvt 2]).completions ∧
    step ⟨3, true⟩ (run ⟨3, true⟩ false
        [.call true, .call true, .openEvt 1, .timerFire 0, .openEvt 2])
        (.message 0 none) ≠
      run ⟨3, true⟩ false
        [.call true, .call true, .openEvt 1, .timerFire 0, .openEvt 2] := by
  decide

/-- C4 (amended): a timeout firing for an in-flight request completes it
with the error `-32001` "Request timeout" and removes it from the
in-flight table (and it is in no table afterwards), provided no
connection-open flush so far threw mid-loop; and any response frame with
the same id arriving at any later point is dropped without effect as
long as the continuation also contains no partial flush (a partial flush
can re-promote a stale queued copy of the timed-out id, which a late
response then completes with effect). -/
theorem C4_timeout_completion (cfg : EngineConfig) (opened : Bool)
    (t1 : List EngineEvent) (i : Nat) (s s' : EngineState)
    (hs : s = run cfg opened t1)
    (hg1 : goodTrace cfg (initState opened) t1 = true)
    (hs' : s' = step cfg s (.timerFire i))
    (hi : i ∈ s.pendingRequests) :
    s'.completions = (i, some timeoutErr) :: s.completions ∧
    timeoutErr.code = -32001 ∧ timeoutErr.message = "Request timeout" ∧
    i ∉ s'.pendingRequests ∧ i ∉ s'.pendingSubscriptions ∧
    (∀ (t2 : List EngineEvent) (res : Option RpcErr),
      goodTrace cfg s' t2 = true →
      step cfg (t2.foldl (step cfg) s') (.message i res) =
        t2.foldl (step cfg) s') := by
  have hInv : Inv s := hs ▸ inv_run cfg opened t1 hg1
  have htm : i ∈ s.timers := pending_in_timers hInv (Or.inl hi)
  have hstep : s' = handleResponseStep s i (some timeoutErr) := by
    rw [hs']; simp [step, htm]
  have hsubs : i ∉ s.pendingSubscriptions := inflight_not_queued hInv hi
  have hInv' : Inv s' := by
    rw [hs']; exact inv_step cfg s _ hInv rfl
  have hcomp : i ∈ completionIds s' := by
    rw [hstep]
    simp [handleResponseStep, completionIds]
  refine ⟨by rw [hstep]; rfl, rfl, rfl, ?_, ?_, ?_⟩
  · rw [hstep]
    exact not_mem_erase_self hInv hi
  · rw [hstep]
    simpa [handleResponseStep, hi] using hsubs
  · intro t2 res hg2
    have hcomp2 : i ∈ completionIds (t2.foldl (step cfg) s') :=
      compIds_mono_foldl cfg t2 s' hcomp
    have hInv2 : Inv (t2.foldl (step cfg) s') := inv_foldl cfg t2 s' hInv' hg2
    have hnot := (completed_not_pending hInv2 hcomp2).1
    simp [step, hnot]

/-- C4 witness: with one in-flight call, firing its timer records the
`-32001` completion and a later response for id 0 is dropped. -/
theorem C4_timeout_completion_witness :
    (step ⟨3, true⟩ (run ⟨3, true⟩ true [.call true]) (.timerFire 0)).completions =
      [(0, some timeoutErr)] ∧
    (step ⟨3, true⟩
      (step ⟨3, true⟩ (run ⟨3, true⟩ true [.call true]) (.timerFire 0))
      (.message 0 none) =
      step ⟨3, true⟩ (run ⟨3, true⟩ true [.call true]) (.timerFire 0)) := by
  have h := C4_timeout_completion ⟨3, true⟩ true [.call true] 0 _ _ rfl (by decide)
    rfl (by decide)
  refine ⟨?_, ?_⟩
  · rw [h.1]; decide
  · have := h.2.2.2.2.2 [] none (by decide)
    simpa using this

/-- C6 counterexample: after a partial flush, id 0 is both in flight and
still waiting in the send queue; the close event then fails it with
`-32000` even though it is referenced from the send queue — a queued
call failed by the close, contradicting the claim. -/
theorem C6_counterexample :
    0 ∈ (run ⟨3, true⟩ false
      [.call true, .call true, .openEvt 1]).pendingSubscriptions ∧
    (0, some connClosedErr) ∈
      (step ⟨3, true⟩ (run ⟨3, true⟩ false [.call true, .call true, .openEvt 1])
        .closeEvt).completions ∧
    (0, some connClosedErr) ∉
      (run ⟨3, true⟩ false [.call true, .call true, .openEvt 1]).completions ∧
    0 ∈ (step ⟨3, true⟩ (run ⟨3, true⟩ false [.call true, .call true, .openEvt 1])
        .closeEvt).pendingSubscriptions := by
  decide

/-- C6 (amended): provided no connection-open flush so far threw
mid-loop, the connection-close handler completes every in-flight call
with `-32000` and empties the in-flight table, while queued calls are
not failed by the close — the send queue is unchanged, every completion
added by the close belongs to a formerly in-flight id, queued ids keep
their armed timers, and a queued call whose timer later fires completes
with `-32001`. After a partial flush a request can be referenced from
both tables, and the close then fails it with `-32000` while it still
sits in the send queue. -/
theorem C6_close_fails_only_inflight (cfg : EngineConfig) (opened : Bool)
    (t1 : List EngineEvent) (s s' : EngineState) (hs : s = run cfg opened t1)
    (hg : goodTrace cfg (initState opened) t1 = true)
    (hcl : s.isConnectionClosed = false) (hs' : s' = step cfg s .closeEvt) :
    s'.pendingRequests = [] ∧
    s'.pendingSubscriptions = s.pendingSubscriptions ∧
    (∀ i, i ∈ s.pendingRequests → (i, some connClosedErr) ∈ s'.completions) ∧
    connClosedErr.code = -32000 ∧
    (∀ p, p ∈ s'.completions → p ∈ s.completions ∨ p.1 ∈ s.pendingRequests) ∧
    (∀ i, i ∈ s.pendingSubscriptions → i ∈ s'.timers) ∧
    (∀ i, i ∈ s'.pendingSubscriptions →
      (step cfg s' (.timerFire i)).completions =
        (i, some timeoutErr) :: s'.completions ∧
      timeoutErr.code = -32001) := by
  have hInv : Inv s := hs ▸ inv_run cfg opened t1 hg
  have hcl' : ¬ s.isConnectionClosed = true := by simp [hcl]
  have hstep : s' =
      { s with
        isConnectionClosed := true,
        pendingRequests := [],
        timers := s.timers.filter (fun i => decide (i ∉ s.pendingRequests)),
        completions :=
          s.pendingRequests.map (fun i => (i, some connClosedErr)) ++ s.completions,
        currentState :=
          if s.reconnectAttempts < cfg.maxRetries then .RECONNECTING else .CLOSED,
        reconnectAttempts :=
          if s.reconnectAttempts < cfg.maxRetries then s.reconnectAttempts + 1
          else s.reconnectAttempts } := by
    rw [hs']; simp [step, hcl']
  have hsubs_timers : ∀ i, i ∈ s.pendingSubscriptions → i ∈ s'.timers := by
    intro i hiq
    have htm : i ∈ s.timers := pending_in_timers hInv (Or.inr hiq)
    have hnr : i ∉ s.pendingRequests := by
      intro hir
      exact inflight_not_queued hInv hir hiq
    rw [hstep]
    exact List.mem_filter.mpr ⟨htm, by simpa using hnr⟩
  refine ⟨by rw [hstep], by rw [hstep], ?_, rfl, ?_, hsubs_timers, ?_⟩
  · intro i hi
    rw [hstep]
    exact List.mem_append_left _ (List.mem_map_of_mem _ hi)
  · intro p hp
    rw [hstep] at hp
    rcases List.mem_append.mp hp with hleft | hright
    · obtain ⟨i0, hi0, hpe⟩ := List.mem_map.mp hleft
      right
      rw [← hpe]
      exact hi0
    · exact Or.inl hright
  · intro i hiq
    have hiq0 : i ∈ s.pendingSubscriptions := by rw [hstep] at hiq; exact hiq
    have htm' : i ∈ s'.timers := hsubs_timers i hiq0
    refine ⟨?_, rfl⟩
    simp [step, htm', handleResponseStep]

/-- C6 witness: a queued call (connection not open) survives a close
event and later times out with `-32001`, while the close sees an empty
in-flight table. -/
theorem C6_close_fails_only_inflight_witness :
    (step ⟨3, false⟩ (run ⟨3, false⟩ false [.call true]) .closeEvt).pendingRequests
        = [] ∧
    (step ⟨3, false⟩ (run ⟨3, false⟩ false [.call true]) .closeEvt).pendingSubscriptions
        = (run ⟨3, false⟩ false [.call true]).pendingSubscriptions ∧
    (step ⟨3, false⟩
        (step ⟨3, false⟩ (run ⟨3, false⟩ false [.call true]) .closeEvt)
        (.timerFire 0)).completions =
      (0, some timeoutErr) ::
        (step ⟨3, false⟩ (run ⟨3, false⟩ false [.call true]) .closeEvt).completions := by
  have h := C6_close_fails_only_inflight ⟨3, false⟩ false [.call true] _ _ rfl
    (by decide) (by decide) rfl
  exact ⟨h.1, h.2.1, (h.2.2.2.2.2.2 0 (by decide)).1⟩

/-- C7 counterexample: while CONNECTED with zero retries used and no
channel factory supplied, a close event still moves the engine to
RECONNECTING, not to CLOSED as the claim requires when no factory is
available. -/
theorem C7_counterexample :
    (EngineConfig.mk 3 false).hasFactory = false ∧
    (run (EngineConfig.mk 3 false) true [EngineEvent.openEvt 0]).currentState =
      ConnState.CONNECTED ∧
    (run (EngineConfig.mk 3 false) true [EngineEvent.openEvt 0]).reconnectAttempts <
      (EngineConfig.mk 3 false).maxRetries ∧
    (step (EngineConfig.mk 3 false)
        (run (EngineConfig.mk 3 false) true [EngineEvent.openEvt 0])
        EngineEvent.closeEvt).currentState = ConnState.RECONNECTING ∧
    ConnState.RECONNECTING ≠ ConnState.CLOSED := by
  decide

/-- C7 (amended): on a close/exit/error event while CONNECTED the engine
transitions to RECONNECTING exactly when the retry count is below
`max_retries`, regardless of factory availability, and to CLOSED
otherwise; when no factory is supplied, a RECONNECTING engine reaches
CLOSED only when the reconnection timer fires, and with a factory the
timer moves it to CONNECTING. -/
theorem C7_close_transition (cfg : EngineConfig) (opened : Bool)
    (t1 : List EngineEvent) (s : EngineState) (hs : s = run cfg opened t1)
    (hconn : s.currentState = ConnState.CONNECTED)
    (hcl : s.isConnectionClosed = false) :
    ((step cfg s .closeEvt).currentState =
      if s.reconnectAttempts < cfg.maxRetries then ConnState.RECONNECTING
      else ConnState.CLOSED) ∧
    (¬ s.reconnectAttempts < cfg.maxRetries →
      (step cfg s .closeEvt).currentState = ConnState.CLOSED) ∧
    (s.reconnectAttempts < cfg.maxRetries →
      (step cfg s .closeEvt).currentState = ConnState.RECONNECTING ∧
      (cfg.hasFactory = false →
        (step cfg (step cfg s .closeEvt) .retryFire).currentState =
          ConnState.CLOSED) ∧
      (cfg.hasFactory = true →
        (step cfg (step cfg s .closeEvt) .retryFire).currentState =
          ConnState.CONNECTING)) := by
  have hcl' : ¬ s.isConnectionClosed = true := by simp [hcl]
  have hclose : (step cfg s .closeEvt).currentState =
      if s.reconnectAttempts < cfg.maxRetries then ConnState.RECONNECTING
      else ConnState.CLOSED := by
    simp [step, hcl']
  refine ⟨hclose, ?_, ?_⟩
  · intro hge
    rw [hclose, if_neg hge]
  · intro hlt
    have hrec : (step cfg s .closeEvt).currentState = ConnState.RECONNECTING := by
      rw [hclose, if_pos hlt]
    refine ⟨hrec, ?_, ?_⟩
    · intro hf
      generalize hgen : step cfg s .closeEvt = s2 at hrec
      simp [step, hrec, hf]
    · intro hf
      generalize hgen : step cfg s .closeEvt = s2 at hrec
      simp [step, hrec, hf]

/-- C7 witness: a CONNECTED engine with no factory and retries left
moves to RECONNECTING on close, and to CLOSED when the retry timer
fires. -/
theorem C7_close_transition_witness :
    (step ⟨3, false⟩ (run ⟨3, false⟩ true [.openEvt 0]) .closeEvt).currentState =
      ConnState.RECONNECTING ∧
    (step ⟨3, false⟩
        (step ⟨3, false⟩ (run ⟨3, false⟩ true [.openEvt 0]) .closeEvt)
        .retryFire).currentState = ConnState.CLOSED := by
  have h := C7_close_transition ⟨3, false⟩ true [.openEvt 0] _ rfl (by decide) (by decide)
  have h3 := h.2.2 (by decide)
  exact ⟨h3.1, h3.2.1 rfl⟩

/-- C5 counterexample: a handler error carrying the truthy code `-32601`
but an empty message is not forwarded verbatim — `setRpcError` replaces
the falsy message with the catalogue message "Method not found.", so the
response's message differs from the error's message. -/
theorem C5_counterexample :
    (invokeCatch (some (Json.num 7))
        { code := some (-32601), message := "", data := some (Json.str "d"),
          kind := .other, errField := none }).error =
      some { code := -32601, message := some "Method not found.",
             type := ErrType.BUSINESS, data := some (Json.str "d") } ∧
    some "Method not found." ≠ some ("" : String) := by
  exact ⟨rfl, by decide⟩

/-- C5 (amended): for an inbound request whose handler throws a genuine
exception (not a pre-formatted standard response) with a non-empty
message: a truthy `code` is forwarded together with the message and data
verbatim (the `type` tag being derived from the code); otherwise the
error kind decides: SyntaxError maps to `-32700`/PROTOCOL, TypeError to
`-32602`/PROTOCOL, and any other error to `-32603`/SYSTEM carrying the
handler's message. An empty message would instead be replaced by the
catalogue message (truthy-code branch) or by "Internal error". -/
theorem C5_error_mapping (id : Option Json) (e : JSError)
    (hmsg : e.message ≠ "") (herr : e.errField = none) :
    (∀ c, e.code = some c → c ≠ 0 →
      (invokeCatch id e).error =
        some (createError c (some e.message) (codeToType c) e.data)) ∧
    (e.code = none ∨ e.code = some 0 →
      ((e.kind = .syntaxError →
        (invokeCatch id e).error =
          some (createError (-32700) (some e.message) .PROTOCOL none)) ∧
       (e.kind = .typeError →
        (invokeCatch id e).error =
          some (createError (-32602) (some e.message) .PROTOCOL none)) ∧
       (e.kind = .other →
        (invokeCatch id e).error =
          some (createError (-32603) (some e.message) .SYSTEM none)))) := by
  constructor
  · intro c hc hc0
    simp [invokeCatch, hc, hc0, setRpcErrorRich, hmsg, createError]
  · intro hcode
    have hbranch : (invokeCatch id e).error = some (parseError e) := by
      rcases hcode with hnone | h0
      · simp [invokeCatch, hnone, handleError]
      · simp [invokeCatch, h0, handleError]
    refine ⟨?_, ?_, ?_⟩ <;> intro hk <;>
      rw [hbranch] <;> simp [parseError, herr, hk, hmsg, createError]

/-- C5 witness: a truthy custom code 5 with message "boom" is forwarded
verbatim, and a code-less SyntaxError maps to `-32700`/PROTOCOL. -/
theorem C5_error_mapping_witness :
    (invokeCatch (some (Json.num 1))
        { code := some 5, message := "boom", data := none,
          kind := .other, errField := none }).error =
      some (createError 5 (some "boom") (codeToType 5) none) ∧
    (invokeCatch (some (Json.num 1))
        { code := none, message := "boom", data := none,
          kind := .syntaxError, errField := none }).error =
      some (createError (-32700) (some "boom") .PROTOCOL none) := by
  have h1 := C5_error_mapping (some (Json.num 1))
    { code := some 5, message := "boom", data := none,
      kind := .other, errField := none } (by decide) rfl
  have h2 := C5_error_mapping (some (Json.num 1))
    { code := none, message := "boom", data := none,
      kind := .syntaxError, errField := none } (by decide) rfl
  exact ⟨h1.1 5 rfl (by decide), (h2.2 (Or.inl rfl)).1 rfl⟩

/-- C8: the message loop of `lib/handler.js` answers an unparseable
channel message with the error response frame of id `-1`, code `-32700`
and catalogue message "Parse error.", for any routing; but the
`handleMessage` loop of `lib/open.js` parses without a try/catch, so
there the same input throws out of the listener and no response frame is
produced. -/
theorem C8_unparseable_frame (routing : JTree) :
    hinvoke routing Msg.garbage =
      .ok { id := some (Json.num (-1)), result := none,
            error := some { code := -32700, message := some "Parse error.",
                            data := none } } ∧
    handleMessageFrame Msg.garbage = .error () :=
  ⟨rfl, rfl⟩

/-- C9: for an inbound request object whose `method` is a non-empty
string resolving to a handler, an absent `params` field invokes the
handler on the empty argument list, a `params` that is a JSON array
invokes it on those arguments, and a present non-array `params` (null,
number, string, boolean or object) fails with `-32602`
"Invalid params.". -/
theorem C9_params_validation (routing : JTree) (o : Json) (s : String) (f : HFn)
    (hm : oget o "method" = some (Json.str s)) (hs : s ≠ "")
    (hf : resolve_method routing s = some f) :
    (oget o "params" = none →
      hinvoke routing (Msg.text o) = .ok (applyHandler (oget o "id") f [])) ∧
    (∀ xs, oget o "params" = some (Json.arr xs) →
      hinvoke routing (Msg.text o) = .ok (applyHandler (oget o "id") f xs)) ∧
    (∀ p, oget o "params" = some p → (∀ xs, p ≠ Json.arr xs) →
      hinvoke routing (Msg.text o) =
        .ok (setRpcErrorMin (oget o "id") (-32602) none none) ∧
      (setRpcErrorMin (oget o "id") (-32602) none none).error =
        some { code := -32602, message := some "Invalid params.", data := none }) := by
  cases o with
  | obj fields =>
      refine ⟨?_, ?_, ?_⟩
      · intro hp
        simp [hinvoke, jsonParse, hm, hp, Json.truthy, hs, hcall, hf]
      · intro xs hp
        simp [hinvoke, jsonParse, hm, hp, Json.truthy, hs, hcall, hf]
      · intro p hp hnx
        constructor
        · cases p with
          | arr xs => exact absurd rfl (hnx xs)
          | null => simp [hinvoke, jsonParse, hm, hp, Json.truthy, hs]
          | bool b => simp [hinvoke, jsonParse, hm, hp, Json.truthy, hs]
          | num n => simp [hinvoke, jsonParse, hm, hp, Json.truthy, hs]
          | str t => simp [hinvoke, jsonParse, hm, hp, Json.truthy, hs]
          | obj fs2 => simp [hinvoke, jsonParse, hm, hp, Json.truthy, hs]
        · rfl
  | null => simp [oget] at hm
  | bool b => simp [oget] at hm
  | num n => simp [oget] at hm
  | str t => simp [oget] at hm
  | arr xs => simp [oget] at hm

/-- C9 witness: with routing `{m: f}`, a request with `params: 5` fails
with `-32602` and a request without `params` invokes `f` on `[]`. -/
theorem C9_params_validation_witness :
    hinvoke (JTree.node [("m", JTree.func (fun xs => .ok (some (Json.num 1))))])
        (Msg.text (Json.obj [("id", Json.num 3), ("method", Json.str "m"),
          ("params", Json.num 5)])) =
      .ok (setRpcErrorMin (some (Json.num 3)) (-32602) none none) ∧
    hinvoke (JTree.node [("m", JTree.func (fun xs => .ok (some (Json.num 1))))])
        (Msg.text (Json.obj [("id", Json.num 3), ("method", Json.str "m")])) =
      .ok (applyHandler (some (Json.num 3))
        (fun xs => .ok (some (Json.num 1))) []) := by
  have hf : resolve_method
      (JTree.node [("m", JTree.func (fun xs => .ok (some (Json.num 1))))]) "m" =
      some (fun xs => .ok (some (Json.num 1))) := by
    simp [resolve_method, goResolve, splitOnDot, splitOnDotAux, finalCheck,
      List.lookup]
  have h := C9_params_validation
    (JTree.node [("m", JTree.func (fun xs => .ok (some (Json.num 1))))])
    (Json.obj [("id", Json.num 3), ("method", Json.str "m"), ("params", Json.num 5)])
    "m" (fun xs => .ok (some (Json.num 1))) rfl (by decide) hf
  have h2 := C9_params_validation
    (JTree.node [("m", JTree.func (fun xs => .ok (some (Json.num 1))))])
    (Json.obj [("id", Json.num 3), ("method", Json.str "m")])
    "m" (fun xs => .ok (some (Json.num 1))) rfl (by decide) hf
  exact ⟨(h.2.2 (Json.num 5) rfl (by intro xs; simp)).1, h2.1 rfl⟩

/-- C10: a property read whose name the function target already answers
to — a cached child or a built-in such as `call`, `apply`, `bind`,
`name`, `length`, `toString`, `constructor` — returns that existing
property and creates no child proxy; any other string-keyed read creates
a child proxy for the extended dotted path, caches it, and a repeated
read returns the same cached child; and every string-keyed assignment
throws the read-only error. -/
theorem C10_proxy_traps :
    (∀ fq t name, name ∈ t.base → t.cache.lookup name = none →
      proxyGet fq t name = (.baseProp name, t)) ∧
    (∀ name, name ∈ functionBuiltinProps →
      proxyGet "user" ⟨functionBuiltinProps, []⟩ name =
        (.baseProp name, ⟨functionBuiltinProps, []⟩)) ∧
    (∀ fq t name, name ∉ t.base → t.cache.lookup name = none →
      proxyGet fq t name =
        (.child (childName fq name),
         ⟨t.base, (name, childName fq name) :: t.cache⟩) ∧
      proxyGet fq ⟨t.base, (name, childName fq name) :: t.cache⟩ name =
        (.child (childName fq name),
         ⟨t.base, (name, childName fq name) :: t.cache⟩)) ∧
    (∀ t name value, proxySet t name value =
      .error ("\"" ++ name ++ "\" is read-only.")) := by
  refine ⟨?_, ?_, ?_, ?_⟩
  · intro fq t name hmem hcache
    simp [proxyGet, hcache, hmem]
  · intro name hmem
    have hcache : ([] : List (String × String)).lookup name = none := rfl
    simp [proxyGet, hcache, hmem]
  · intro fq t name hmem hcache
    constructor
    · simp [proxyGet, hcache, hmem]
    · simp [proxyGet, List.lookup]
  · intro t name value
    rfl

/-- A found prefix length is a literal key and is the longest one among
the lengths up to the fuel. -/
theorem longestKeyLen_maximal {α : Type} (fields : List (String × α))
    (segs : List String) :
    ∀ n k, longestKeyLen fields segs n = some k →
      (fields.lookup (dotJoin (segs.take k))).isSome = true ∧
      ∀ l, k < l → l ≤ n → fields.lookup (dotJoin (segs.take l)) = none := by
  intro n
  induction n with
  | zero => intro k h; simp [longestKeyLen] at h
  | succ m ih =>
      intro k h
      simp only [longestKeyLen] at h
      by_cases hl : (fields.lookup (dotJoin (segs.take (m + 1)))).isSome = true
      · simp only [hl, if_true] at h
        obtain rfl : m + 1 = k := Option.some.inj h
        refine ⟨hl, ?_⟩
        intro l h1 h2
        omega
      · simp only [hl, if_false] at h
        obtain ⟨hsome, hmax⟩ := ih k h
        refine ⟨hsome, ?_⟩
        intro l h1 h2
        by_cases hlm : l = m + 1
        · subst hlm
          exact Option.not_isSome_iff_eq_none.mp hl
        · exact hmax l h1 (by omega)

/-- C1: at every namespace node the router consumes the longest dotted
prefix of the remaining segments that literally appears as a key (every
strictly longer prefix is not a key) and descends into that child with
the unconsumed suffix; in particular, for the routing tree
`{user: H1, "user.special": H2}`, resolving `user.special` reaches `H2`
with no suffix, and resolving `user.profile.get` reaches `H1` with the
invocation context's remaining method equal to `profile.get`. -/
theorem C1_longest_prefix_resolution :
    (∀ (α : Type) (fields : List (String × RTree α)) (segs : List String) (k : Nat),
      longestKeyLen fields segs segs.length = some k →
        1 ≤ k ∧ k ≤ segs.length ∧
        (fields.lookup (dotJoin (segs.take k))).isSome = true ∧
        (∀ l, k < l → l ≤ segs.length →
          fields.lookup (dotJoin (segs.take l)) = none) ∧
        (∀ child, fields.lookup (dotJoin (segs.take k)) = some child →
          resolveSpec (RTree.nmspace fields) segs =
            resolveSpec child (segs.drop k))) ∧
    resolveSpecMethod
        (RTree.nmspace [("user", RTree.handler 1), ("user.special", RTree.handler 2)])
        "user.special" = some (RTree.handler 2, []) ∧
    resolveSpecMethod
        (RTree.nmspace [("user", RTree.handler 1), ("user.special", RTree.handler 2)])
        "user.profile.get" = some (RTree.handler 1, ["profile", "get"]) ∧
    dotJoin ["profile", "get"] = "profile.get" ∧
    dotJoin ([] : List String) = "" := by
  refine ⟨?_, ?_, ?_, rfl, rfl⟩
  · intro α fields segs k h
    obtain ⟨h1, h2⟩ := longestKeyLen_pos fields segs segs.length k h
    obtain ⟨hsome, hmax⟩ := longestKeyLen_maximal fields segs segs.length k h
    refine ⟨h1, h2, hsome, hmax, ?_⟩
    intro child hchild
    rw [resolveSpec, h]
    simp [hchild]
  · simp [resolveSpecMethod, resolveSpec, splitOnDot, splitOnDotAux, longestKeyLen,
      dotJoin, List.lookup]
  · simp [resolveSpecMethod, resolveSpec, splitOnDot, splitOnDotAux, longestKeyLen,
      dotJoin, List.lookup]

/-- C1 witness: in the `{user, user.special}` tree the longest matching
prefix of `user.profile.get` has one segment, `user.profile` is not a
key, and the resolution instances of the theorem hold concretely. -/
theorem C1_longest_prefix_resolution_witness :
    ([("user", RTree.handler 1), ("user.special", RTree.handler 2)].lookup
      (dotJoin (["user", "profile", "get"].take 2)) : Option (RTree Nat)) = none ∧
    resolveSpecMethod
        (RTree.nmspace [("user", RTree.handler 1), ("user.special", RTree.handler 2)])
        "user.special" = some (RTree.handler 2, []) := by
  have h := C1_longest_prefix_resolution
  have hg := h.1 Nat [("user", RTree.handler 1), ("user.special", RTree.handler 2)]
    ["user", "profile", "get"] 1 (by decide)
  exact ⟨hg.2.2.2.1 2 (by omega) (by decide), h.2.1⟩

/-- C3: running a middleware chain whose non-final elements are `fs` and
whose final element is `g`: any error outcome is exactly `-32603` with
the message "Only the last handler in the chain can return a value"; if
every non-final element returns no value (undefined or null) along the
execution then the chain's result is the final element's return value on
the evolved context; and conversely a successful outcome means every
non-final element returned no value and the result came from the final
element. -/
theorem C3_chain_return_rule (fs : List ChainFn) (g : ChainFn) (ctx : ChainCtx) :
    (∀ e, runChain (fs ++ [g]) ctx = .error e → e = chainViolationErr) ∧
    (∀ c', RunsClean fs ctx c' → runChain (fs ++ [g]) ctx = .ok ((g c').1)) ∧
    (∀ r, runChain (fs ++ [g]) ctx = .ok r →
      ∃ c', RunsClean fs ctx c' ∧ r = (g c').1) ∧
    chainViolationErr.code = -32603 ∧
    chainViolationErr.message = "Only the last handler in the chain can return a value" := by
  induction fs generalizing ctx with
  | nil =>
      refine ⟨?_, ?_, ?_, rfl, rfl⟩
      · intro e he
        simp [runChain] at he
      · intro c' hc
        cases hc
        simp [runChain]
      · intro r hr
        simp [runChain] at hr
        exact ⟨ctx, RunsClean.nil ctx, hr.symm⟩
  | cons f fs ih =>
      have hcons : ∀ ctx0 : ChainCtx, runChain ((f :: fs) ++ [g]) ctx0 =
          if isNullish (f ctx0).1 then runChain (fs ++ [g]) (f ctx0).2
          else .error chainViolationErr := by
        intro ctx0
        cases fs with
        | nil => rfl
        | cons a t => rfl
      refine ⟨?_, ?_, ?_, rfl, rfl⟩
      · intro e he
        rw [hcons] at he
        by_cases hn : isNullish (f ctx).1 = true
        · rw [if_pos hn] at he
          exact (ih (f ctx).2).1 e he
        · rw [if_neg hn] at he
          exact (Except.error.inj he).symm
      · intro c' hc
        cases hc with
        | cons hnull htail =>
            rw [hcons, if_pos hnull]
            exact (ih (f ctx).2).2.1 c' htail
      · intro r hr
        rw [hcons] at hr
        by_cases hn : isNullish (f ctx).1 = true
        · rw [if_pos hn] at hr
          obtain ⟨c', hclean, hre⟩ := (ih (f ctx).2).2.2.1 r hr
          exact ⟨c', RunsClean.cons hn hclean, hre⟩
        · rw [if_neg hn] at hr
          cases hr

/-- C3 witness: a two-element chain whose first element returns a value
fails with the `-32603` violation error, and a chain whose first element
returns nothing yields the last element's return value. -/
theorem C3_chain_return_rule_witness :
    runChain [fun c => (some (Json.str "X"), c), fun c => (some (Json.str "t"), c)]
        { id := none, method := "", params := [] } = .error chainViolationErr ∧
    runChain [fun c => (none, c), fun c => (some (Json.str "ok"), c)]
        { id := none, method := "", params := [] } = .ok (some (Json.str "ok")) := by
  have h2 := C3_chain_return_rule [fun c => (none, c)]
    (fun c => (some (Json.str "ok"), c)) { id := none, method := "", params := [] }
  exact ⟨rfl, h2.2.1 { id := none, method := "", params := [] }
    (RunsClean.cons rfl (RunsClean.nil _))⟩

/-- C10 witness: on a fresh proxy target, reading `call` returns the
built-in property, reading `profile` creates the cached child
`user.profile`, and assigning to `x` throws the read-only error. -/
theorem C10_proxy_traps_witness :
    proxyGet "user" ⟨functionBuiltinProps, []⟩ "call" =
      (.baseProp "call", ⟨functionBuiltinProps, []⟩) ∧
    proxyGet "user" ⟨functionBuiltinProps, []⟩ "profile" =
      (.child "user.profile", ⟨functionBuiltinProps, [("profile", "user.profile")]⟩) ∧
    proxySet ⟨functionBuiltinProps, []⟩ "x" Json.null =
      .error ("\"x\" is read-only.") := by
  have h := C10_proxy_traps
  refine ⟨h.2.1 "call" (by decide), ?_, h.2.2.2 _ "x" Json.null⟩
  have h3 := (h.2.2.1 "user" ⟨functionBuiltinProps, []⟩ "profile"
    (by decide) rfl).1
  simpa [childName] using h3

end Drpc
